import Mathlib

/-!
Shallow embedding of the diagram-expression evaluator in
`src/penrose-web/src/engine/Evaluator.ts`, together with theorems checking
the specification's claims about it.

Modelling conventions:
* JavaScript numbers are modelled as `Rat` (the claims under study never
  depend on floating-point rounding).
* Autodiff scalars (`VarAD`) are opaque handles into an external library
  (spec section 6); we model them as the symbolic trees the primitives build.
* The JavaScript value `undefined` is modelled explicitly where the code can
  produce or consume it: `VarAD.undefined` for an undefined scalar, and
  `Option` wrappers (`none` = `undefined`) for arrays and lookup results.
* In-place mutation of the translation is modelled by explicit state
  passing: each function that mutates the translation returns the new one.
* Thrown JavaScript errors are modelled by `Except EvalError`; explicit
  `throw Error(msg)` sites keep their message, and implicit runtime
  `TypeError`s (e.g. reading a property of `undefined`) are `typeError`.
* Recursion through the translation is not guaranteed to terminate (the
  acyclicity contract is unchecked), so the evaluator takes a fuel
  parameter; running out of fuel is the distinguished `outOfFuel` error,
  which models divergence and never occurs for well-founded inputs.
-/

namespace Penrose

/-- Symbolic model of the external autodiff scalar (`VarAD`).  The autodiff
primitive library is out of scope for the source (spec section 6), so scalars
are modelled as the expression trees the primitives `constOf`,
`differentiable`, `add`, `sub`, `mul`, `div`, `neg` build.  `undefined` models the
JavaScript value `undefined` sitting in a scalar position. -/
inductive VarAD where
  | constOf (x : Rat)
  | differentiable (x : Rat)
  | undefined
  | add (a b : VarAD)
  | sub (a b : VarAD)
  | mul (a b : VarAD)
  | div (a b : VarAD)
  | neg (a : VarAD)
deriving DecidableEq, Repr

/-- A JavaScript value expected to be an array of autodiff scalars;
`none` models `undefined`. -/
abbrev JsVec := Option (List VarAD)

/-- Payload of an `AFloat` `Fix` node: translations store either a plain
machine number or an already-lifted autodiff scalar (the source tests
`val.tag ? val : constOf(val)`). -/
inductive NumOrAD where
  | num (x : Rat)
  | ad (v : VarAD)
deriving DecidableEq, Repr

/-- The `AnnoFloat` AST node: `Vary` (an unsubstituted varying value) or
`Fix` (a fixed number). -/
inductive AnnoFloat where
  | Vary
  | Fix (x : NumOrAD)
deriving DecidableEq, Repr

/-- Unary operators: `UPlus`, `UMinus`. -/
inductive UnaryOp where
  | UPlus
  | UMinus
deriving DecidableEq, Repr

/-- Binary operators: `BPlus`, `BMinus`, `Multiply`, `Divide`, `Exp`. -/
inductive BinaryOp where
  | BPlus
  | BMinus
  | Multiply
  | Divide
  | Exp
deriving DecidableEq, Repr

/-- Paths into the translation.  `BindingForm` names are collapsed to their
string contents (the source only ever reads `name.contents`).  `AccessPath`
indices are the JavaScript numbers carried in the path data. -/
inductive Path where
  | FieldPath (name field : String)
  | PropertyPath (name field prop : String)
  | AccessPath (inner : Path) (indices : List Rat)
deriving DecidableEq, Repr

/-- The style expression AST, mirroring the `Expr` tags the evaluator
dispatches on.  `ListAccess` carries no payload here because the evaluator
throws before inspecting it. -/
inductive Expr where
  | IntLit (n : Rat)
  | StringLit (s : String)
  | BoolLit (b : Bool)
  | AFloat (a : AnnoFloat)
  | UOp (op : UnaryOp) (e : Expr)
  | BinOp (op : BinaryOp) (e1 e2 : Expr)
  | Tuple (es : List Expr)
  | List (es : List Expr)
  | ListAccess
  | Vector (es : List Expr)
  | Matrix (es : List Expr)
  | VectorAccess (p : Path) (idx : Expr)
  | MatrixAccess (p : Path) (idxs : List Expr)
  | EPath (p : Path)
  | CompApp (fnName : String) (args : List Expr)

/-- The value algebra over autodiff scalars.  `VectorV`'s payload is a
`JsVec` because the op evaluator can produce `{tag: "VectorV", contents:
undefined}` (see the coverage-hole claims). -/
inductive Value where
  | FloatV (x : VarAD)
  | IntV (x : Rat)
  | BoolV (b : Bool)
  | StrV (s : String)
  | VectorV (v : JsVec)
  | MatrixV (m : List JsVec)
  | TupV (x y : VarAD)
  | ListV (xs : List VarAD)
  | LListV (xss : List JsVec)
deriving DecidableEq, Repr

/-- The numeric projection of a `Value` consumed by the display layer:
every autodiff scalar replaced by its plain number. -/
inductive ValueNum where
  | FloatV (x : Rat)
  | IntV (x : Rat)
  | BoolV (b : Bool)
  | StrV (s : String)
  | VectorV (v : Option (List Rat))
  | MatrixV (m : List (Option (List Rat)))
  | TupV (x y : Rat)
  | ListV (xs : List Rat)
  | LListV (xss : List (Option (List Rat)))
deriving DecidableEq, Repr

/-- A translation cell: pending expression, cached value, or side-channel
value. -/
inductive TagExpr where
  | OptEval (e : Expr)
  | Done (v : Value)
  | Pending (v : Value)

/-- A field entry: an expression cell or a shape (`FGPI`) with a property
dictionary. -/
inductive FieldExpr where
  | FExpr (t : TagExpr)
  | FGPI (shapeType : String) (props : List (String × TagExpr))

/-- What `findExpr` can return: a bare `TagExpr` (field or property case) or
the raw `FGPI` entry. -/
inductive FindResult where
  | tagExpr (t : TagExpr)
  | fgpi (shapeType : String) (props : List (String × TagExpr))

/-- The translation: substance name to field name to field entry.
JavaScript objects are modelled as association lists whose `set` keeps the
position of an existing key and appends a new one, matching object-property
insertion order. -/
structure Translation where
  trMap : List (String × List (String × FieldExpr))

/-- Model of every way the evaluator can abort.  `error msg` is an explicit
`throw Error(msg)` with the source's message text; `typeError` is an implicit
JavaScript `TypeError` (reading or destructuring `undefined`, calling a
missing function); the remaining constructors carry structured payloads of
explicit throws whose messages interpolate data. -/
inductive EvalError where
  | outOfFuel
  | error (msg : String)
  | typeError (msg : String)
  | typeMismatch (op t1 t2 : String)
  | couldNotFindField (p : Path)
  | couldNotFindGPI (p : Path)
  | compAppArity (fnName : String) (got : Nat)
  | compAppNotPath (fnName : String)
deriving DecidableEq, Repr

/-- `ArgVal`: a plain value or a graphical primitive instance. -/
inductive ArgVal where
  | Val (v : Value)
  | GPI (shapeType : String) (props : List (String × Value))
deriving DecidableEq, Repr

/-- An evaluated shape: type plus numerically-projected properties. -/
structure Shape where
  shapeType : String
  properties : List (String × ValueNum)
deriving DecidableEq, Repr

/-- The varying map: keyed by the canonical serialization of a path.  Path
serialization (`JSON.stringify`) is injective on paths, so the map is
modelled as keyed by the path itself. -/
abbrev VaryMap := List (Path × VarAD)

/-- Gradient debug info threaded to the reserved computation-dictionary
entries. -/
structure OptDebugInfo where
  gradient : List (Path × Rat)
  gradientPreconditioned : List (Path × Rat)

/-- The slice of the optimizer `params` bundle the evaluator reads.  The
gradient arrays may be absent (`undefined`) on a freshly decoded state. -/
structure Params where
  lastGradient : Option (List Rat)
  lastGradientPreconditioned : Option (List Rat)

/-- The slice of the `State` record the shape evaluator reads and writes.
`shapes` entries are `Option Shape` because the sorting step can place
`undefined` in the list (see the shape-ordering claim). -/
structure State where
  varyingValues : List Rat
  varyingPaths : List Path
  shapePaths : List Path
  shapeOrdering : List String
  translation : Translation
  varyingMap : VaryMap
  shapes : List (Option Shape)
  params : Params

/-- Modelled from the spec: the computation dictionary and its type checker
(`compDict` and `checkComp` from `contrib/Functions`) are code of this
repository that is not under `src/`.  Spec section 6 describes the
dictionary as an opaque map from names to functions; two reserved names
consume `(debugInfo, path-as-string)` and all others receive the evaluated
arguments.  We model it as an abstract pair of functions: `reserved` receives
the raw path argument (the rewrite to an `AccessPath` key and its JSON
serialization happen at this opaque boundary), `call` receives the evaluated
argument list (wrapper stripping and `checkComp` happen inside). -/
structure CompDictModel where
  reserved : String → OptDebugInfo → Expr → Except EvalError Value
  call : String → List ArgVal → Except EvalError Value

/-- Association-list lookup, modelling JavaScript object / `Map` reads
(`undefined` = `none`). -/
def getAssoc {κ α : Type} [DecidableEq κ] : List (κ × α) → κ → Option α
  | [], _ => none
  | (k', v) :: rest, k => if k' = k then some v else getAssoc rest k

/-- Association-list write, modelling JavaScript object / `Map` writes: an
existing key keeps its position, a new key is appended. -/
def setAssoc {κ α : Type} [DecidableEq κ] : List (κ × α) → κ → α → List (κ × α)
  | [], k, v => [(k, v)]
  | (k', v') :: rest, k, v =>
    if k' = k then (k', v) :: rest else (k', v') :: setAssoc rest k v

/-- JavaScript array read `l[i]` for a possibly non-integral or negative
index: an element for an integral in-range index, `undefined` otherwise. -/
def jsIndex {α : Type} (l : List α) (i : Rat) : Option α :=
  if i.den = 1 ∧ 0 ≤ i.num then l.get? i.num.toNat else none

/-- JavaScript array write `l[i] = x`.  An integral index inside the array
replaces the element, the index equal to the length appends.  Any other
index creates a non-element property of the array object, which our list
model cannot observe; the element list is unchanged there. -/
def jsSetIdx {α : Type} (l : List α) (iOpt : Option Rat) (x : α) : List α :=
  match iOpt with
  | none => l
  | some i =>
    if i.den = 1 ∧ 0 ≤ i.num then
      if i.num.toNat < l.length then l.set i.num.toNat x
      else if i.num.toNat = l.length then l ++ [x]
      else l
    else l

/-- Evaluator of the symbolic autodiff graph, modelling the external
`numOf`.  `undefined` has no numeric meaning; it is sent to `0`, and no claim
depends on that choice. -/
def numOf : VarAD → Rat
  | .constOf x => x
  | .differentiable x => x
  | .undefined => 0
  | .add a b => numOf a + numOf b
  | .sub a b => numOf a - numOf b
  | .mul a b => numOf a * numOf b
  | .div a b => numOf a / numOf b
  | .neg a => - numOf a

/-- Modelled from the spec: `valueAutodiffToNumber` (from
`engine/EngineUtils`, absent from the sources) is the "non-AD numeric
projection of the evaluated values" of spec section 4.6: each autodiff
scalar in the value is replaced by its plain number. -/
def valueAutodiffToNumber : Value → ValueNum
  | .FloatV x => .FloatV (numOf x)
  | .IntV x => .IntV x
  | .BoolV b => .BoolV b
  | .StrV s => .StrV s
  | .VectorV v => .VectorV (v.map (fun l => l.map numOf))
  | .MatrixV m => .MatrixV (m.map (fun r => r.map (fun l => l.map numOf)))
  | .TupV x y => .TupV (numOf x) (numOf y)
  | .ListV xs => .ListV (xs.map numOf)
  | .LListV xss => .LListV (xss.map (fun r => r.map (fun l => l.map numOf)))

/-- Modelled from the spec: `floatVal` (from `utils/OtherUtils`, absent from
the sources) wraps an autodiff scalar as a `Val`-tagged `FloatV`, per spec
section 4.5 step 1. -/
def floatVal (v : VarAD) : ArgVal := .Val (.FloatV v)

/-- The `intToFloat` promotion: wrap the integer as `FloatV (constOf n)`. -/
def intToFloat (n : Rat) : Value := .FloatV (.constOf n)

/-- The tag string of a value, as interpolated into the type-mismatch error
message. -/
def tagOf : Value → String
  | .FloatV _ => "FloatV"
  | .IntV _ => "IntV"
  | .BoolV _ => "BoolV"
  | .StrV _ => "StrV"
  | .VectorV _ => "VectorV"
  | .MatrixV _ => "MatrixV"
  | .TupV _ _ => "TupV"
  | .ListV _ => "ListV"
  | .LListV _ => "LListV"

/-- The operator name string, as interpolated into error messages. -/
def binOpName : BinaryOp → String
  | .BPlus => "BPlus"
  | .BMinus => "BMinus"
  | .Multiply => "Multiply"
  | .Divide => "Divide"
  | .Exp => "Exp"

/-- Model of `Math.pow` restricted to what `Rat` can express: integral
exponents compute the rational power; a non-integral exponent is outside
the model and mapped to `0` (no claim exercises it). -/
def jsPow (a b : Rat) : Rat :=
  if b.den = 1 then
    if 0 ≤ b.num then a ^ b.num.toNat else (a ^ (-b.num).toNat)⁻¹
  else 0

/-- `genPathMap`: build the path-keyed map from aligned arrays.  Absent
(`undefined`) arguments give the empty map; a length mismatch throws. -/
def genPathMap {α : Type} (paths : Option (List Path)) (vals : Option (List α)) :
    Except EvalError (List (Path × α)) :=
  match paths, vals with
  | some ps, some vs =>
    if vs.length ≠ ps.length then
      .error (.error "Different numbers of varying vars vs. paths")
    else
      .ok ((ps.zip vs).foldl (fun m pv => setAssoc m pv.1 pv.2) [])
  | _, _ => .ok []

/-- `doneFloat`: wrap a scalar as `Done (FloatV n)`. -/
def doneFloat (n : VarAD) : TagExpr := .Done (.FloatV n)

/-- `findExpr`: read a translation entry by field or property path.  An
`ok none` result is the JavaScript function returning `undefined` (a missing
property of an existing shape). -/
def findExpr : Translation → Path → Except EvalError (Option FindResult)
  | tr, .FieldPath name field =>
    match getAssoc tr.trMap name with
    | none => .error (.typeError "cannot read field of undefined substance entry")
    | some dict =>
      match getAssoc dict field with
      | none => .error (.couldNotFindField (.FieldPath name field))
      | some (.FGPI ty props) => .ok (some (.fgpi ty props))
      | some (.FExpr t) => .ok (some (.tagExpr t))
  | tr, .PropertyPath name field prop =>
    match getAssoc tr.trMap name with
    | none => .error (.typeError "cannot read field of undefined substance entry")
    | some dict =>
      match getAssoc dict field with
      | none => .error (.couldNotFindGPI (.PropertyPath name field prop))
      | some (.FExpr _) => .error (.error "field path leads to an expression, not a GPI")
      | some (.FGPI _ props) => .ok ((getAssoc props prop).map .tagExpr)
  | _, .AccessPath _ _ => .error (.error "TODO")

/-- The payload a `TagExpr` exposes through `.contents` when the code expects
a value there: `Done`/`Pending` carry a value; the `.contents` of an
`OptEval` is an expression, not a value, so it is `none` here (every
consumer either detects this by a failed tag test or produces junk that we
collapse to `undefined`). -/
def tagPayload : TagExpr → Option Value
  | .Done v => some v
  | .Pending v => some v
  | .OptEval _ => none

/-- `floatValToExpr`: re-wrap an inserted scalar value as an `AFloat` AST
literal; any non-`FloatV` payload fails the tag test and throws. -/
def floatValToExpr (vOpt : Option Value) : Except EvalError Expr :=
  match vOpt with
  | some (.FloatV x) => .ok (.AFloat (.Fix (.ad x)))
  | _ => .error (.error "expected to insert vector elem of type float")

/-- The raw `.contents.contents` read performed when writing into a `Done`
vector: a `FloatV` yields its scalar; any other payload puts a non-scalar
JavaScript value in a scalar slot, collapsed to `undefined`. -/
def extractVarAD (vOpt : Option Value) : VarAD :=
  match vOpt with
  | some (.FloatV x) => x
  | _ => .undefined

/-- The `AccessPath` arm of `insertExpr`, with the index list already
reduced to the only element the source reads (`indices[0]`). -/
def insertExprAccess (innerPath : Path) (idx : Option Rat) (expr : TagExpr)
    (trans : Translation) : Except EvalError Translation :=
  match innerPath with
  | .FieldPath name field =>
    match getAssoc trans.trMap name with
    | none => .error (.typeError "cannot read field of undefined substance entry")
    | some dict =>
      match getAssoc dict field with
      | none => .error (.typeError "cannot read tag of undefined")
      | some (.FGPI _ _) => .error (.error "did not expect GPI in vector access")
      | some (.FExpr res2) =>
        match res2 with
        | .OptEval res3 =>
          match res3 with
          | .Vector res4 =>
            match floatValToExpr (tagPayload expr) with
            | .error e => .error e
            | .ok elemExpr =>
              .ok ⟨setAssoc trans.trMap name (setAssoc dict field
                (.FExpr (.OptEval (.Vector (jsSetIdx res4 idx elemExpr)))))⟩
          | _ => .error (.error "expected Vector")
        | .Done res3 =>
          match res3 with
          | .VectorV none => .error (.typeError "cannot set index of undefined")
          | .VectorV (some res4) =>
            .ok ⟨setAssoc trans.trMap name (setAssoc dict field
              (.FExpr (.Done (.VectorV (some
                (jsSetIdx res4 idx (extractVarAD (tagPayload expr))))))))⟩
          | _ => .error (.error "expected Vector")
        | .Pending _ => .error (.error "unexpected tag")
  | .PropertyPath name field prop =>
    match getAssoc trans.trMap name with
    | none => .error (.typeError "cannot read field of undefined substance entry")
    | some dict =>
      match getAssoc dict field with
      | none => .error (.typeError "cannot destructure contents of undefined")
      | some (.FExpr _) => .error (.typeError "contents of an FExpr is not iterable")
      | some (.FGPI ty props) =>
        match getAssoc props prop with
        | none => .error (.typeError "cannot read tag of undefined")
        | some res =>
          match res with
          | .OptEval res2 =>
            match res2 with
            | .Vector res3 =>
              match floatValToExpr (tagPayload expr) with
              | .error e => .error e
              | .ok elemExpr =>
                .ok ⟨setAssoc trans.trMap name (setAssoc dict field
                  (.FGPI ty (setAssoc props prop
                    (.OptEval (.Vector (jsSetIdx res3 idx elemExpr))))))⟩
            | _ => .error (.error "expected Vector")
          | .Done res2 =>
            match res2 with
            | .VectorV none => .error (.typeError "cannot set index of undefined")
            | .VectorV (some res3) =>
              .ok ⟨setAssoc trans.trMap name (setAssoc dict field
                (.FGPI ty (setAssoc props prop
                  (.Done (.VectorV (some
                    (jsSetIdx res3 idx (extractVarAD (tagPayload expr)))))))))⟩
            | _ => .error (.error "expected Vector")
          | .Pending _ => .error (.error "unexpected tag")
  | .AccessPath _ _ => .error (.error "should not have nested AccessPath in AccessPath")

/-- `insertExpr`: write a `TagExpr` into the translation at a path,
returning the mutated translation. -/
def insertExpr : Path → TagExpr → Translation → Except EvalError Translation
  | .FieldPath name field, expr, tr =>
    match getAssoc tr.trMap name with
    | none => .error (.typeError "cannot set field of undefined substance entry")
    | some dict =>
      .ok ⟨setAssoc tr.trMap name (setAssoc dict field (.FExpr expr))⟩
  | .PropertyPath name field prop, expr, tr =>
    match getAssoc tr.trMap name with
    | none => .error (.typeError "cannot read field of undefined substance entry")
    | some dict =>
      match getAssoc dict field with
      | none => .error (.typeError "cannot destructure contents of undefined")
      | some (.FExpr _) => .error (.typeError "contents of an FExpr is not iterable")
      | some (.FGPI ty props) =>
        .ok ⟨setAssoc tr.trMap name (setAssoc dict field
          (.FGPI ty (setAssoc props prop expr)))⟩
  | .AccessPath innerPath indices, expr, tr =>
    insertExprAccess innerPath indices.head? expr tr

/-- `insertVaryings`: fold each varying value into the translation as a
`Done` float. -/
def insertVaryings (trans : Translation) (varyingMap : List (Path × VarAD)) :
    Except EvalError Translation :=
  match varyingMap with
  | [] => .ok trans
  | (p, v) :: rest =>
    match insertExpr p (doneFloat v) trans with
    | .error e => .error e
    | .ok tr' => insertVaryings tr' rest

/-- `evalUOp`: unary plus always throws; unary minus negates a float, an
int, or a vector pointwise (`ops.vneg`); anything else hits the catch-all
throw (whose message in the source is the uninterpolated template text). -/
def evalUOp (op : UnaryOp) (arg : Value) : Except EvalError Value :=
  match arg with
  | .FloatV x =>
    match op with
    | .UPlus => .error (.error "unary plus is undefined")
    | .UMinus => .ok (.FloatV (.neg x))
  | .IntV n =>
    match op with
    | .UPlus => .error (.error "unary plus is undefined")
    | .UMinus => .ok (.IntV (-n))
  | .VectorV v =>
    match op with
    | .UPlus => .error (.error "unary plus is undefined")
    | .UMinus =>
      match v with
      | some l => .ok (.VectorV (some (l.map VarAD.neg)))
      | none => .error (.typeError "vector op applied to undefined")
  | _ => .error (.error "unary op undefined on type, op")

/-- The float-float arm of `evalBinOp` (also reached after int promotion):
the autodiff primitives, except `Exp` which throws. -/
def evalBinOpFF (op : BinaryOp) (a b : VarAD) : Except EvalError Value :=
  match op with
  | .BPlus => .ok (.FloatV (.add a b))
  | .BMinus => .ok (.FloatV (.sub a b))
  | .Multiply => .ok (.FloatV (.mul a b))
  | .Divide => .ok (.FloatV (.div a b))
  | .Exp => .error (.error "Pow op unimplemented")

/-- `evalBinOp`.  Int-to-float promotion applies exactly when one operand is
`IntV` and the other `FloatV` (the source's recursive promotion calls are
unfolded into the first three arms).  In the vector arms the source's
`switch` has no `default`, so an unhandled operator returns
`{tag: "VectorV", contents: undefined}` — modelled as `VectorV none`.
Operand pairs matching no arm throw the type-mismatch error. -/
def evalBinOp (op : BinaryOp) (v1 v2 : Value) : Except EvalError Value :=
  match v1, v2 with
  | .IntV n, .FloatV b => evalBinOpFF op (.constOf n) b
  | .FloatV a, .IntV n => evalBinOpFF op a (.constOf n)
  | .FloatV a, .FloatV b => evalBinOpFF op a b
  | .IntV a, .IntV b =>
    match op with
    | .BPlus => .ok (.IntV (a + b))
    | .BMinus => .ok (.IntV (a - b))
    | .Multiply => .ok (.IntV (a * b))
    | .Divide => .ok (.FloatV (.constOf (a / b)))
    | .Exp => .ok (.IntV (jsPow a b))
  | .VectorV a, .VectorV b =>
    match op with
    | .BPlus =>
      match a, b with
      | some la, some lb => .ok (.VectorV (some (List.zipWith VarAD.add la lb)))
      | _, _ => .error (.typeError "vector op applied to undefined")
    | .BMinus =>
      match a, b with
      | some la, some lb => .ok (.VectorV (some (List.zipWith VarAD.sub la lb)))
      | _, _ => .error (.typeError "vector op applied to undefined")
    | _ => .ok (.VectorV none)
  | .FloatV a, .VectorV b =>
    match op with
    | .Multiply =>
      match b with
      | some lb => .ok (.VectorV (some (lb.map (fun x => VarAD.mul a x))))
      | none => .error (.typeError "vector op applied to undefined")
    | _ => .ok (.VectorV none)
  | .VectorV a, .FloatV b =>
    match op with
    | .Divide =>
      match a with
      | some la => .ok (.VectorV (some (la.map (fun x => VarAD.div x b))))
      | none => .error (.typeError "vector op applied to undefined")
    | _ => .ok (.VectorV none)
  | _, _ => .error (.typeMismatch (binOpName op) (tagOf v1) (tagOf v2))

/-- The tag string an `ArgVal`'s `.contents` exposes when cast to a value:
the value's tag, or `"undefined"` for a GPI's `[type, props]` pair. -/
def argContentsTag : ArgVal → String
  | .Val v => tagOf v
  | .GPI _ _ => "undefined"

/-- `toFloatVal`: coerce a list/tuple element to a scalar, promoting
integers. -/
def toFloatVal : ArgVal → Except EvalError VarAD
  | .Val (.FloatV x) => .ok x
  | .Val (.IntV n) => .ok (.constOf n)
  | .Val _ => .error (.error "Expected floating type in list")
  | .GPI _ _ => .error (.error "Expected value (non-GPI) type in list")

/-- `toVecVal`: coerce a list/matrix element to a vector payload. -/
def toVecVal : ArgVal → Except EvalError JsVec
  | .Val (.VectorV v) => .ok v
  | .Val _ => .error (.error "Expected vector type in list")
  | .GPI _ _ => .error (.error "Expected value (non-GPI) type in list")

/-- The synthetic property path built for each property of a resolved shape:
`concat(path.contents, propName)`.  Only a `FieldPath` base occurs (the
`FGPI` case of the resolver is reached only through one); other bases are
returned unchanged. -/
def toPropertyPath : Path → String → Path
  | .FieldPath n f, prop => .PropertyPath n f prop
  | p, _ => p

/-- The index coercion of the `MatrixAccess` case: each evaluated index must
be a `Val`-wrapped `IntV`. -/
def toIntIndex : ArgVal → Except EvalError Rat
  | .Val (.IntV i) => .ok i
  | .Val _ => .error (.error "expected int")
  | .GPI _ _ => .error (.error "expected val")

/-- Effectful map over a list in `Except`, used for the `map` calls whose
callbacks can throw. -/
def mapMExcept {α β : Type} (f : α → Except EvalError β) :
    List α → Except EvalError (List β)
  | [] => .ok []
  | a :: rest =>
    match f a with
    | .error err => .error err
    | .ok b =>
      match mapMExcept f rest with
      | .error err => .error err
      | .ok bs => .ok (b :: bs)

mutual

/-- `evalExpr`: evaluate one expression against the translation, the varying
map, and the debug info, returning the result and the (possibly mutated)
translation. -/
def evalExpr : Nat → CompDictModel → Expr → Translation → VaryMap → OptDebugInfo →
    Except EvalError (ArgVal × Translation)
  | 0, _, _, _, _, _ => .error .outOfFuel
  | fuel + 1, cd, e, tr0, vm, dbg =>
    match e with
    | .IntLit n => .ok (.Val (.IntV n), tr0)
    | .StringLit s => .ok (.Val (.StrV s), tr0)
    | .BoolLit b => .ok (.Val (.BoolV b), tr0)
    | .AFloat a =>
      match a with
      | .Vary => .error (.error "encountered an unsubstituted varying value")
      | .Fix x =>
        match x with
        | .num r => .ok (.Val (.FloatV (.constOf r)), tr0)
        | .ad v => .ok (.Val (.FloatV v), tr0)
    | .UOp uop e1 =>
      match evalExpr fuel cd e1 tr0 vm dbg with
      | .error err => .error err
      | .ok (.Val arg, tr1) =>
        match evalUOp uop arg with
        | .error err => .error err
        | .ok res => .ok (.Val res, tr1)
      | .ok (.GPI _ _, _) => .error (.error "unary op undefined on type, op")
    | .BinOp binOp e1 e2 =>
      match evalExprs fuel cd [e1, e2] tr0 vm dbg with
      | .error err => .error err
      | .ok (vals, tr1) =>
        match vals with
        | [val1, val2] =>
          match val1, val2 with
          | .Val c1, .Val c2 =>
            match evalBinOp binOp c1 c2 with
            | .error err => .error err
            | .ok res => .ok (.Val res, tr1)
          | v1, v2 =>
            .error (.typeMismatch (binOpName binOp) (argContentsTag v1) (argContentsTag v2))
        | _ => .error (.typeError "destructuring of a result list of the wrong arity")
    | .Tuple es =>
      match evalExprs fuel cd es tr0 vm dbg with
      | .error err => .error err
      | .ok (argVals, tr1) =>
        match argVals with
        | [a1, a2] =>
          match toFloatVal a1 with
          | .error err => .error err
          | .ok x1 =>
            match toFloatVal a2 with
            | .error err => .error err
            | .ok x2 => .ok (.Val (.TupV x1 x2), tr1)
        | _ => .error (.error "Expected tuple of length 2")
    | .List es =>
      match evalExprs fuel cd es tr0 vm dbg with
      | .error err => .error err
      | .ok (argVals, tr1) =>
        match argVals with
        | [] => .ok (.Val (.ListV []), tr1)
        | a0 :: _ =>
          match a0 with
          | .Val (.FloatV _) =>
            match mapMExcept toFloatVal argVals with
            | .error err => .error err
            | .ok xs => .ok (.Val (.ListV xs), tr1)
          | .Val (.VectorV _) =>
            match mapMExcept toVecVal argVals with
            | .error err => .error err
            | .ok xss => .ok (.Val (.LListV xss), tr1)
          | .Val _ =>
            .error (.error "List access expression not (yet) supported")
          | .GPI _ _ => .error (.error "unsupported element in list")
    | .ListAccess => .error (.error "List access expression not (yet) supported")
    | .Vector es =>
      match evalExprs fuel cd es tr0 vm dbg with
      | .error err => .error err
      | .ok (argVals, tr1) =>
        match argVals with
        | [] => .error (.typeError "cannot read tag of undefined")
        | a0 :: _ =>
          match a0 with
          | .GPI _ _ => .error (.error "expected val")
          | .Val (.VectorV _) =>
            match mapMExcept toVecVal argVals with
            | .error err => .error err
            | .ok xss => .ok (.Val (.MatrixV xss), tr1)
          | .Val _ =>
            match mapMExcept toFloatVal argVals with
            | .error err => .error err
            | .ok xs => .ok (.Val (.VectorV (some xs)), tr1)
    | .Matrix _ => .error (.error "cannot evaluate expression of type Matrix")
    | .VectorAccess p idxE =>
      match resolvePath fuel cd p tr0 vm dbg with
      | .error err => .error err
      | .ok (v1, tr1) =>
        match evalExpr fuel cd idxE tr1 vm dbg with
        | .error err => .error err
        | .ok (v2, tr2) =>
          match v1 with
          | .GPI _ _ => .error (.error "expected val")
          | .Val c1 =>
            match v2 with
            | .GPI _ _ => .error (.error "expected val")
            | .Val c2 =>
              match c2 with
              | .IntV i =>
                match c1 with
                | .LListV llist =>
                  if i < 0 ∨ (llist.length : Rat) < i then
                    .error (.error "access out of bounds")
                  else .ok (.Val (.VectorV ((jsIndex llist i).join)), tr2)
                | .VectorV (some vec) =>
                  if i < 0 ∨ (vec.length : Rat) < i then
                    .error (.error "access out of bounds")
                  else .ok (.Val (.FloatV ((jsIndex vec i).getD .undefined)), tr2)
                | .VectorV none => .error (.typeError "cannot read length of undefined")
                | _ => .error (.error "expected Vector")
              | _ => .error (.error "expected int")
    | .MatrixAccess p idxEs =>
      match resolvePath fuel cd p tr0 vm dbg with
      | .error err => .error err
      | .ok (v1, tr1) =>
        match evalExprs fuel cd idxEs tr1 vm dbg with
        | .error err => .error err
        | .ok (v2s, tr2) =>
          match mapMExcept toIntIndex v2s with
          | .error err => .error err
          | .ok indices =>
            match v1 with
            | .GPI _ _ => .error (.error "expected val")
            | .Val c1 =>
              match c1 with
              | .MatrixV mat =>
                match indices with
                | [i, j] =>
                  if i < 0 ∨ (mat.length : Rat) - 1 < i then
                    .error (.error "`i` access out of bounds")
                  else
                    match (jsIndex mat i).join with
                    | none => .error (.typeError "cannot read length of undefined")
                    | some vec =>
                      if j < 0 ∨ (vec.length : Rat) - 1 < j then
                        .error (.error "`j` access out of bounds")
                      else .ok (.Val (.FloatV ((jsIndex vec j).getD .undefined)), tr2)
                | _ => .error (.error "expected 2 indices to access matrix")
              | _ => .error (.error "expected Matrix")
    | .EPath p => resolvePath fuel cd p tr0 vm dbg
    | .CompApp fnName argExprs =>
      if fnName = "derivative" ∨ fnName = "derivativePreconditioned" then
        match argExprs with
        | [p] =>
          match p with
          | .EPath _ =>
            match cd.reserved fnName dbg p with
            | .error err => .error err
            | .ok v => .ok (.Val v, tr0)
          | .VectorAccess _ _ =>
            match cd.reserved fnName dbg p with
            | .error err => .error err
            | .ok v => .ok (.Val v, tr0)
          | .MatrixAccess _ _ =>
            match cd.reserved fnName dbg p with
            | .error err => .error err
            | .ok v => .ok (.Val v, tr0)
          | _ => .error (.compAppNotPath fnName)
        | _ => .error (.compAppArity fnName argExprs.length)
      else
        match evalExprs fuel cd argExprs tr0 vm dbg with
        | .error err => .error err
        | .ok (args, tr1) =>
          match cd.call fnName args with
          | .error err => .error err
          | .ok v => .ok (.Val v, tr1)

/-- `evalExprs`: evaluate a list of expressions left-to-right, threading the
translation (evaluation order is observable because sub-expressions write
to the translation cache). -/
def evalExprs : Nat → CompDictModel → List Expr → Translation → VaryMap → OptDebugInfo →
    Except EvalError (List ArgVal × Translation)
  | 0, _, _, _, _, _ => .error .outOfFuel
  | fuel + 1, cd, es, tr0, vm, dbg =>
    match es with
    | [] => .ok ([], tr0)
    | e :: rest =>
      match evalExpr fuel cd e tr0 vm dbg with
      | .error err => .error err
      | .ok (v, tr1) =>
        match evalExprs fuel cd rest tr1 vm dbg with
        | .error err => .error err
        | .ok (vs, tr2) => .ok (v :: vs, tr2)

/-- `resolvePath`: resolve a path to an evaluated value or shape.  The
varying map is consulted before anything else; `AccessPath` resolution is
unimplemented; an `OptEval` cell is evaluated and cached back as `Done`. -/
def resolvePath : Nat → CompDictModel → Path → Translation → VaryMap → OptDebugInfo →
    Except EvalError (ArgVal × Translation)
  | 0, _, _, _, _, _ => .error .outOfFuel
  | fuel + 1, cd, path, tr0, vm, dbg =>
    match getAssoc vm path with
    | some v => .ok (floatVal v, tr0)
    | none =>
      match path with
      | .AccessPath _ _ => .error (.error "TODO")
      | _ =>
        match findExpr tr0 path with
        | .error err => .error err
        | .ok none => .error (.typeError "cannot read tag of undefined")
        | .ok (some (.fgpi ty props)) =>
          match evalGPIProps fuel cd path props tr0 vm dbg with
          | .error err => .error err
          | .ok (evaledProps, tr1) => .ok (.GPI ty evaledProps, tr1)
        | .ok (some (.tagExpr t)) =>
          match t with
          | .OptEval e1 =>
            match evalExpr fuel cd e1 tr0 vm dbg with
            | .error err => .error err
            | .ok (.Val v, tr1) =>
              match insertExpr path (.Done v) tr1 with
              | .error err => .error err
              | .ok tr2 => .ok (.Val v, tr2)
            | .ok (.GPI _ _, _) =>
              .error (.error "Field expression evaluated to GPI when this case was eliminated")
          | .Done v => .ok (.Val v, tr0)
          | .Pending v => .ok (.Val v, tr0)

/-- The `mapValues` loop of the resolver's `FGPI` case: each `OptEval`
property is evaluated through its own synthetic property path (so varying
overrides and caching apply) and written back as `Done`; a `Done`/`Pending`
property first consults the varying map at the property path. -/
def evalGPIProps : Nat → CompDictModel → Path → List (String × TagExpr) → Translation →
    VaryMap → OptDebugInfo → Except EvalError (List (String × Value) × Translation)
  | 0, _, _, _, _, _, _ => .error .outOfFuel
  | fuel + 1, cd, basePath, props, tr0, vm, dbg =>
    match props with
    | [] => .ok ([], tr0)
    | (propName, p) :: rest =>
      match p with
      | .OptEval _ =>
        match evalExpr fuel cd (.EPath (toPropertyPath basePath propName)) tr0 vm dbg with
        | .error err => .error err
        | .ok (.GPI _ _, _) => .error (.typeError "cast of a GPI to IVal")
        | .ok (.Val v, tr1) =>
          match insertExpr (toPropertyPath basePath propName) (.Done v) tr1 with
          | .error err => .error err
          | .ok tr2 =>
            match evalGPIProps fuel cd basePath rest tr2 vm dbg with
            | .error err => .error err
            | .ok (restProps, tr3) => .ok ((propName, v) :: restProps, tr3)
      | .Done v0 =>
        match evalGPIProps fuel cd basePath rest tr0 vm dbg with
        | .error err => .error err
        | .ok (restProps, tr1) =>
          match getAssoc vm (toPropertyPath basePath propName) with
          | some w => .ok ((propName, .FloatV w) :: restProps, tr1)
          | none => .ok ((propName, v0) :: restProps, tr1)
      | .Pending v0 =>
        match evalGPIProps fuel cd basePath rest tr0 vm dbg with
        | .error err => .error err
        | .ok (restProps, tr1) =>
          match getAssoc vm (toPropertyPath basePath propName) with
          | some w => .ok ((propName, .FloatV w) :: restProps, tr1)
          | none => .ok ((propName, v0) :: restProps, tr1)

end

/-- The `mapValues` loop of `evalShape`: each `OptEval` property is evaluated
as a bare expression (no property-path caching at this level) and projected
to numbers; `Done`/`Pending` properties are projected unchanged. -/
def evalShapeProps (fuel : Nat) (cd : CompDictModel) :
    List (String × TagExpr) → Translation → VaryMap → OptDebugInfo →
    Except EvalError (List (String × ValueNum) × Translation)
  | [], tr, _, _ => .ok ([], tr)
  | (k, prop) :: rest, tr, vm, dbg =>
    match prop with
    | .OptEval e =>
      match evalExpr fuel cd e tr vm dbg with
      | .error err => .error err
      | .ok (.GPI _ _, _) => .error (.typeError "cast of a GPI to IVal")
      | .ok (.Val v, tr1) =>
        match evalShapeProps fuel cd rest tr1 vm dbg with
        | .error err => .error err
        | .ok (restProps, tr2) => .ok ((k, valueAutodiffToNumber v) :: restProps, tr2)
    | .Done v =>
      match evalShapeProps fuel cd rest tr vm dbg with
      | .error err => .error err
      | .ok (restProps, tr2) => .ok ((k, valueAutodiffToNumber v) :: restProps, tr2)
    | .Pending v =>
      match evalShapeProps fuel cd rest tr vm dbg with
      | .error err => .error err
      | .ok (restProps, tr2) => .ok ((k, valueAutodiffToNumber v) :: restProps, tr2)

/-- `evalShape`: materialize one shape from its (cast) `FGPI` entry,
appending to the running shape list.  A non-`FGPI` entry (possible because
the `findExpr` result was cast unchecked) fails the JavaScript array
destructuring of its `contents` — a `TypeError`. -/
def evalShape (fuel : Nat) (cd : CompDictModel) (shapeExpr : Option FindResult)
    (tr : Translation) (vm : VaryMap) (shapes : List (Option Shape))
    (dbg : OptDebugInfo) : Except EvalError (List (Option Shape) × Translation) :=
  match shapeExpr with
  | some (.fgpi shapeType propExprs) =>
    match evalShapeProps fuel cd propExprs tr vm dbg with
    | .error err => .error err
    | .ok (props, tr1) =>
      .ok (shapes ++ [some { shapeType := shapeType, properties := props }], tr1)
  | _ => .error (.typeError "cannot destructure contents of a non-FGPI shape entry")

/-- The `reduce` over shape expressions in `evalShapes`. -/
def evalShapeFold (fuel : Nat) (cd : CompDictModel) :
    List (Option FindResult) → List (Option Shape) → Translation → VaryMap →
    OptDebugInfo → Except EvalError (List (Option Shape) × Translation)
  | [], shapes, tr, _, _ => .ok (shapes, tr)
  | e :: rest, shapes, tr, vm, dbg =>
    match evalShape fuel cd e tr vm shapes dbg with
    | .error err => .error err
    | .ok (shapes1, tr1) => evalShapeFold fuel cd rest shapes1 tr1 vm dbg

/-- Whether a shape property's `.contents` is `===`-equal to a name string:
only a `StrV` with the same string compares equal. -/
def nameContentsEq : ValueNum → String → Bool
  | .StrV s, nm => s = nm
  | _, _ => false

/-- The `Array.prototype.find` call of the sorting step: scan the evaluated
shapes for one whose `name` property holds the given string.  The callback
reads `properties.name.contents`, so a shape without a `name` property (or
an `undefined` entry) raises a `TypeError`; a miss returns `undefined`
(`none`) because the source's non-null assertion has no runtime effect. -/
def findShapeByName (nm : String) : List (Option Shape) →
    Except EvalError (Option Shape)
  | [] => .ok none
  | none :: _ => .error (.typeError "cannot destructure properties of undefined")
  | some sh :: rest =>
    match getAssoc sh.properties "name" with
    | none => .error (.typeError "cannot read contents of undefined")
    | some v => if nameContentsEq v nm then .ok (some sh) else findShapeByName nm rest

/-- The sorting step: map the declared ordering over `find` results. -/
def sortShapes (ordering : List String) (shapes : List (Option Shape)) :
    Except EvalError (List (Option Shape)) :=
  match ordering with
  | [] => .ok []
  | nm :: rest =>
    match findShapeByName nm shapes with
    | .error err => .error err
    | .ok sh =>
      match sortShapes rest shapes with
      | .error err => .error err
      | .ok rest' => .ok (sh :: rest')

/-- `evalShapes`: one full evaluation pass.  The result is
`(returnedState, callerState)`: `returnedState` is the shallow copy the
function returns, and `callerState` is the caller's own state object after
the pass, reflecting the in-place mutations the source performs on it
(the `varyingMap` reassignment and the varying insertion into
`s.translation`, which runs **before** the deep clone). -/
def evalShapes (fuel : Nat) (cd : CompDictModel) (s : State) :
    Except EvalError (State × State) :=
  match genPathMap (some s.varyingPaths) (some (s.varyingValues.map VarAD.differentiable)) with
  | .error err => .error err
  | .ok vmap =>
    match genPathMap (some s.varyingPaths) s.params.lastGradient with
    | .error err => .error err
    | .ok grad =>
      match genPathMap (some s.varyingPaths) s.params.lastGradientPreconditioned with
      | .error err => .error err
      | .ok gradP =>
        match insertVaryings s.translation
            (s.varyingPaths.zip (s.varyingValues.map VarAD.differentiable)) with
        | .error err => .error err
        | .ok transWithVarying =>
          match mapMExcept (fun p => findExpr transWithVarying p) s.shapePaths with
          | .error err => .error err
          | .ok shapeExprs =>
            match evalShapeFold fuel cd shapeExprs [] transWithVarying vmap
                ⟨grad, gradP⟩ with
            | .error err => .error err
            | .ok (shapesEvaled, _) =>
              match sortShapes s.shapeOrdering shapesEvaled with
              | .error err => .error err
              | .ok sorted =>
                .ok
                  ({ s with
                      varyingMap := vmap
                      translation := transWithVarying
                      shapes := sorted },
                   { s with
                      varyingMap := vmap
                      translation := transWithVarying })

/-! ### Concrete fixtures used by the claim theorems -/

/-- A computation dictionary with no entries: every call fails, as calling a
missing JavaScript dictionary entry would. -/
def cdEmpty : CompDictModel :=
  { reserved := fun _ _ _ => .error (.typeError "call of undefined dictionary entry")
    call := fun _ _ => .error (.typeError "call of undefined dictionary entry") }

/-- Empty gradient debug info. -/
def dbg0 : OptDebugInfo := ⟨[], []⟩

/-- A translation whose single field holds a cached two-element vector. -/
def transVec : Translation :=
  ⟨[("A", [("x", .FExpr (.Done (.VectorV (some [.constOf 1, .constOf 2]))))])]⟩

/-- A state with one varying path whose translation cell is an unevaluated
expression. -/
def sC1 : State :=
  { varyingValues := [7]
    varyingPaths := [.FieldPath "A" "x"]
    shapePaths := []
    shapeOrdering := []
    translation := ⟨[("A", [("x", .FExpr (.OptEval (.AFloat (.Fix (.num 3)))))])]⟩
    varyingMap := []
    shapes := []
    params := ⟨none, none⟩ }

/-- The translation the caller of `evalShapes` observes after running it on
`sC1`: the varying value has been written over the expression cell. -/
def transC1After : Translation :=
  ⟨[("A", [("x", .FExpr (.Done (.FloatV (.differentiable 7))))])]⟩

/-- The caller-visible state after `evalShapes` on `sC1`. -/
def callerC1 : State :=
  { sC1 with
      varyingMap := [(.FieldPath "A" "x", .differentiable 7)]
      translation := transC1After }

/-- The state `evalShapes` returns on `sC1`. -/
def retC1 : State := { callerC1 with shapes := [] }

/-- The tag of the cell a translation holds at a name and a field, as a
string; used to compare translations decidably. -/
def cellTag (t : Translation) (n f : String) : Option String :=
  match getAssoc t.trMap n with
  | none => none
  | some d =>
    match getAssoc d f with
    | none => none
    | some (.FExpr (.OptEval _)) => some "OptEval"
    | some (.FExpr (.Done _)) => some "Done"
    | some (.FExpr (.Pending _)) => some "Pending"
    | some (.FGPI _ _) => some "FGPI"

/-- A translation with one shape whose `name` property is the string `c`. -/
def transC6 : Translation :=
  ⟨[("c", [("shape", .FGPI "Circle"
      [("name", .Done (.StrV "c")), ("r", .Done (.FloatV (.constOf 5)))])])]⟩

/-- A state whose `shapeOrdering` names `d`, which no evaluated shape
matches. -/
def sC6 : State :=
  { varyingValues := []
    varyingPaths := []
    shapePaths := [.FieldPath "c" "shape"]
    shapeOrdering := ["c", "d"]
    translation := transC6
    varyingMap := []
    shapes := []
    params := ⟨none, none⟩ }

/-- The one shape `evalShapes` evaluates from `sC6`. -/
def shapeC6 : Shape :=
  { shapeType := "Circle"
    properties := [("name", .StrV "c"), ("r", .FloatV 5)] }

/-- A translation with one shape that has a `name` property but no `r`
property. -/
def transC9 : Translation :=
  ⟨[("A", [("f", .FGPI "Circle" [("name", .Done (.StrV "a"))])])]⟩

/-! ### Claim theorems -/

/-- Claim C2 (code bug, evaluation of the code at the failing input): the
`VectorAccess` bounds check in the source is `i < 0 || i > vec.length`, so
on a two-element vector the index `2` (the length) is **accepted** and the
evaluator returns `FloatV undefined` read past the end of the array instead
of raising the out-of-bounds error; `-1` is rejected and `0`, `len-1`
succeed as the claim states. -/
theorem vectorAccess_bounds_off_by_one :
    evalExpr 10 cdEmpty (.VectorAccess (.FieldPath "A" "x") (.IntLit 2))
        transVec [] dbg0 = .ok (.Val (.FloatV .undefined), transVec) ∧
    evalExpr 10 cdEmpty (.VectorAccess (.FieldPath "A" "x") (.IntLit (-1)))
        transVec [] dbg0 = .error (.error "access out of bounds") ∧
    evalExpr 10 cdEmpty (.VectorAccess (.FieldPath "A" "x") (.IntLit 0))
        transVec [] dbg0 = .ok (.Val (.FloatV (.constOf 1)), transVec) ∧
    evalExpr 10 cdEmpty (.VectorAccess (.FieldPath "A" "x") (.IntLit 1))
        transVec [] dbg0 = .ok (.Val (.FloatV (.constOf 2)), transVec) := by
  refine ⟨rfl, rfl, rfl, rfl⟩

/-- Claim C3 (counterexample): `IntV Multiply VectorV` and
`VectorV Divide IntV` do **not** promote the integer operand; both fall
through every typed arm of `evalBinOp` and raise the type-mismatch error. -/
theorem int_vector_promotion_cex :
    evalBinOp .Multiply (.IntV 2) (.VectorV (some [.constOf 1])) =
      .error (.typeMismatch "Multiply" "IntV" "VectorV") ∧
    evalBinOp .Divide (.VectorV (some [.constOf 1])) (.IntV 2) =
      .error (.typeMismatch "Divide" "VectorV" "IntV") := by
  refine ⟨rfl, rfl⟩

/-- Claim C3 (amended): `evalBinOp` promotes an integer operand only when
the other operand is a float.  Every `IntV`-`VectorV` pairing, in either
order and for every operator, matches no arm and fails with the
type-mismatch error. -/
theorem int_vector_pairs_type_mismatch (op : BinaryOp) (n : Rat) (v : JsVec) :
    evalBinOp op (.IntV n) (.VectorV v) =
      .error (.typeMismatch (binOpName op) "IntV" "VectorV") ∧
    evalBinOp op (.VectorV v) (.IntV n) =
      .error (.typeMismatch (binOpName op) "VectorV" "IntV") := by
  refine ⟨rfl, rfl⟩

/-- Claim C4 (code bug, evaluation of the code at the failing inputs): in
the vector arms of `evalBinOp` the `switch` has no `default`, so the
operator-coverage holes inside those arms do not throw `TypeMismatch`; they
return a `VectorV` whose contents are `undefined`. -/
theorem binop_holes_return_undefined_vector :
    evalBinOp .Multiply (.VectorV (some [.constOf 1])) (.VectorV (some [.constOf 2])) =
      .ok (.VectorV none) ∧
    evalBinOp .Exp (.VectorV (some [.constOf 1])) (.VectorV (some [.constOf 2])) =
      .ok (.VectorV none) ∧
    evalBinOp .BPlus (.FloatV (.constOf 1)) (.VectorV (some [.constOf 2])) =
      .ok (.VectorV none) ∧
    evalBinOp .Multiply (.VectorV (some [.constOf 1])) (.FloatV (.constOf 2)) =
      .ok (.VectorV none) := by
  refine ⟨rfl, rfl, rfl, rfl⟩

/-- Claim C5 (counterexample): an `AccessPath` write carrying the two
indices `[0, 1]` does **not** fail with `Unimplemented`; it performs the
write, overwriting element `0` of the addressed vector. -/
theorem two_index_write_performs_write_cex :
    insertExpr (.AccessPath (.FieldPath "A" "x") [0, 1])
        (.Done (.FloatV (.constOf 9))) transVec =
      .ok ⟨[("A", [("x", .FExpr (.Done (.VectorV
        (some [.constOf 9, .constOf 2]))))])]⟩ := by
  rfl

/-- Claim C5 (amended): `insertExpr` reads only the first index of an
`AccessPath`; a write with indices `[i, j, ...]` behaves exactly as the
single-index write at `[i]`.  (Only a nested `AccessPath` inner path is
rejected.) -/
theorem two_index_write_ignores_second_index (inner : Path) (i j : Rat)
    (rest : List Rat) (expr : TagExpr) (tr : Translation) :
    insertExpr (.AccessPath inner (i :: j :: rest)) expr tr =
      insertExpr (.AccessPath inner [i]) expr tr := by
  simp only [insertExpr, List.head?]

/-- Claim C6 (code bug, evaluation of the code at the failing input): with
`shapeOrdering = ["c", "d"]` and a single evaluated shape named `c`, the
sorting step places `undefined` in the output list for `d` (the source's
non-null assertion has no runtime effect, and the `TODO: error` comment
marks the missing check); no error is raised. -/
theorem shape_ordering_missing_name_yields_undefined :
    (evalShapes 20 cdEmpty sC6).map (fun rc => rc.1.shapes) =
      .ok [some shapeC6, none] := by
  rfl

/-- Claim C9 (counterexample): reading a property that does not exist on an
existing shape does **not** fail with the unresolved-path error;
`findExpr` returns the `undefined` entry (`none`). -/
theorem findExpr_missing_prop_returns_undefined_cex :
    findExpr transC9 (.PropertyPath "A" "f" "r") = .ok none := by
  rfl

/-- Claim C7: for every path present in the varying map, `resolvePath`
returns the stored scalar wrapped as a `Val FloatV`, leaving the translation
untouched — whatever the translation holds at that path. -/
theorem resolvePath_varying_override_first (fuel : Nat) (cd : CompDictModel)
    (p : Path) (tr : Translation) (vm : VaryMap) (dbg : OptDebugInfo) (v : VarAD)
    (h : getAssoc vm p = some v) :
    resolvePath (fuel + 1) cd p tr vm dbg = .ok (.Val (.FloatV v), tr) := by
  simp only [resolvePath, h, floatVal]

/-- Witness for claim C7: a concrete varying map holding `7` at a path whose
translation cell holds a different cached float `3`; the resolver returns
the varying value. -/
theorem resolvePath_varying_override_first_witness :
    resolvePath (5 + 1) cdEmpty (.FieldPath "A" "x")
        ⟨[("A", [("x", .FExpr (.Done (.FloatV (.constOf 3))))])]⟩
        [(.FieldPath "A" "x", .differentiable 7)] dbg0 =
      .ok (.Val (.FloatV (.differentiable 7)),
        ⟨[("A", [("x", .FExpr (.Done (.FloatV (.constOf 3))))])]⟩) :=
  resolvePath_varying_override_first 5 cdEmpty (.FieldPath "A" "x")
    ⟨[("A", [("x", .FExpr (.Done (.FloatV (.constOf 3))))])]⟩
    [(.FieldPath "A" "x", .differentiable 7)] dbg0 (.differentiable 7) rfl

/-- Claim C9 (amended): the source checks only two of the three lookup
levels.  A missing substance name fails with a JavaScript `TypeError` (not
the unresolved-path error); a missing field under an existing name fails
with the could-not-find error for both path kinds; a missing property of an
existing shape is returned as an `undefined` entry with no failure at
all. -/
theorem findExpr_missing_lookup_behavior (t : Translation) (n f prop : String) :
    (getAssoc t.trMap n = none →
      findExpr t (.FieldPath n f) =
        .error (.typeError "cannot read field of undefined substance entry") ∧
      findExpr t (.PropertyPath n f prop) =
        .error (.typeError "cannot read field of undefined substance entry")) ∧
    (∀ dict, getAssoc t.trMap n = some dict → getAssoc dict f = none →
      findExpr t (.FieldPath n f) = .error (.couldNotFindField (.FieldPath n f)) ∧
      findExpr t (.PropertyPath n f prop) =
        .error (.couldNotFindGPI (.PropertyPath n f prop))) ∧
    (∀ dict ty props, getAssoc t.trMap n = some dict →
      getAssoc dict f = some (.FGPI ty props) → getAssoc props prop = none →
      findExpr t (.PropertyPath n f prop) = .ok none) := by
  refine ⟨fun h => ⟨?_, ?_⟩, fun dict h1 h2 => ⟨?_, ?_⟩,
    fun dict ty props h1 h2 h3 => ?_⟩
  · simp only [findExpr, h]
  · simp only [findExpr, h]
  · simp only [findExpr, h1, h2]
  · simp only [findExpr, h1, h2]
  · simp only [findExpr, h1, h2, h3, Option.map]

/-- Witness for the amended claim C9, instantiating all three conclusions on
the concrete translation `transC9`. -/
theorem findExpr_missing_lookup_behavior_witness :
    findExpr transC9 (.FieldPath "B" "f") =
      .error (.typeError "cannot read field of undefined substance entry") ∧
    findExpr transC9 (.FieldPath "A" "g") =
      .error (.couldNotFindField (.FieldPath "A" "g")) ∧
    findExpr transC9 (.PropertyPath "A" "g" "r") =
      .error (.couldNotFindGPI (.PropertyPath "A" "g" "r")) ∧
    findExpr transC9 (.PropertyPath "A" "f" "w") = .ok none :=
  ⟨((findExpr_missing_lookup_behavior transC9 "B" "f" "r").1 rfl).1,
   ((findExpr_missing_lookup_behavior transC9 "A" "g" "r").2.1 _ rfl rfl).1,
   ((findExpr_missing_lookup_behavior transC9 "A" "g" "r").2.1 _ rfl rfl).2,
   (findExpr_missing_lookup_behavior transC9 "A" "f" "w").2.2 _ _ _ rfl rfl rfl⟩

/-- Writing a key and reading it back returns the written value. -/
theorem getAssoc_setAssoc_self {κ α : Type} [DecidableEq κ]
    (l : List (κ × α)) (k : κ) (v : α) :
    getAssoc (setAssoc l k v) k = some v := by
  induction l with
  | nil => simp [setAssoc, getAssoc]
  | cons hd tl ih =>
    by_cases h : hd.1 = k
    · simp [setAssoc, getAssoc, h]
    · simpa [setAssoc, getAssoc, h] using ih

/-- After a successful field write, reading the field back yields exactly
the written cell. -/
theorem insertExpr_field_find (n f : String) (x : TagExpr) (t t' : Translation)
    (h : insertExpr (.FieldPath n f) x t = .ok t') :
    findExpr t' (.FieldPath n f) = .ok (some (.tagExpr x)) := by
  simp only [insertExpr] at h
  cases hd : getAssoc t.trMap n with
  | none => simp only [hd] at h; exact Except.noConfusion h
  | some dict =>
    simp only [hd, Except.ok.injEq] at h
    subst h
    simp only [findExpr, getAssoc_setAssoc_self]

/-- After a successful property write, reading the property back yields
exactly the written cell. -/
theorem insertExpr_prop_find (n f prop : String) (x : TagExpr) (t t' : Translation)
    (h : insertExpr (.PropertyPath n f prop) x t = .ok t') :
    findExpr t' (.PropertyPath n f prop) = .ok (some (.tagExpr x)) := by
  simp only [insertExpr] at h
  cases hd : getAssoc t.trMap n with
  | none => simp only [hd] at h; exact Except.noConfusion h
  | some dict =>
    simp only [hd] at h
    cases hf : getAssoc dict f with
    | none => simp only [hf] at h; exact Except.noConfusion h
    | some fe =>
      cases fe with
      | FExpr t0 => simp only [hf] at h; exact Except.noConfusion h
      | FGPI ty props =>
        simp only [hf, Except.ok.injEq] at h
        subst h
        simp only [findExpr, getAssoc_setAssoc_self, Option.map]

/-- A path whose varying entry is absent but whose translation cell is
already `Done` resolves to the cached value, translation unchanged. -/
theorem resolvePath_done_hit (fuel : Nat) (cd : CompDictModel) (p : Path)
    (tr : Translation) (vm : VaryMap) (dbg : OptDebugInfo) (v : Value)
    (hvm : getAssoc vm p = none)
    (hcell : findExpr tr p = .ok (some (.tagExpr (.Done v)))) :
    resolvePath (fuel + 1) cd p tr vm dbg = .ok (.Val v, tr) := by
  cases p with
  | AccessPath inner idx => simp [findExpr] at hcell
  | FieldPath n f => simp only [resolvePath, hvm, hcell]
  | PropertyPath n f prop => simp only [resolvePath, hvm, hcell]

/-- Inversion of a successful resolution of a non-varying `OptEval` cell:
the expression evaluated to the returned value, and the returned translation
is the evaluated one with `Done` inserted at the path. -/
theorem resolvePath_opteval_inv (fuel : Nat) (cd : CompDictModel) (p : Path)
    (tr tr' : Translation) (vm : VaryMap) (dbg : OptDebugInfo) (e : Expr) (v : Value)
    (hvm : getAssoc vm p = none)
    (hcell : findExpr tr p = .ok (some (.tagExpr (.OptEval e))))
    (hrun : resolvePath (fuel + 1) cd p tr vm dbg = .ok (.Val v, tr')) :
    ∃ tr1, evalExpr fuel cd e tr vm dbg = .ok (.Val v, tr1) ∧
      insertExpr p (.Done v) tr1 = .ok tr' := by
  cases p with
  | AccessPath inner idx => simp [findExpr] at hcell
  | FieldPath n f =>
    simp only [resolvePath, hvm, hcell] at hrun
    cases he : evalExpr fuel cd e tr vm dbg with
    | error err => simp only [he] at hrun; exact Except.noConfusion hrun
    | ok res =>
      obtain ⟨a, tr1⟩ := res
      cases a with
      | GPI ty props => simp only [he] at hrun; exact Except.noConfusion hrun
      | Val v0 =>
        simp only [he] at hrun
        cases hi : insertExpr (.FieldPath n f) (.Done v0) tr1 with
        | error err => simp only [hi] at hrun; exact Except.noConfusion hrun
        | ok tr2 =>
          simp only [hi, Except.ok.injEq, Prod.mk.injEq, ArgVal.Val.injEq] at hrun
          obtain ⟨rfl, rfl⟩ := hrun
          exact ⟨tr1, rfl, hi⟩
  | PropertyPath n f prop =>
    simp only [resolvePath, hvm, hcell] at hrun
    cases he : evalExpr fuel cd e tr vm dbg with
    | error err => simp only [he] at hrun; exact Except.noConfusion hrun
    | ok res =>
      obtain ⟨a, tr1⟩ := res
      cases a with
      | GPI ty props => simp only [he] at hrun; exact Except.noConfusion hrun
      | Val v0 =>
        simp only [he] at hrun
        cases hi : insertExpr (.PropertyPath n f prop) (.Done v0) tr1 with
        | error err => simp only [hi] at hrun; exact Except.noConfusion hrun
        | ok tr2 =>
          simp only [hi, Except.ok.injEq, Prod.mk.injEq, ArgVal.Val.injEq] at hrun
          obtain ⟨rfl, rfl⟩ := hrun
          exact ⟨tr1, rfl, hi⟩

/-- Claim C8: resolving a non-varying path whose cell is `OptEval` writes
`Done(value)` back at that path, so the cell is afterwards a `Done` holding
the returned value, and resolving the same path again (with any remaining
fuel) returns the equal value with no further change to the translation. -/
theorem resolvePath_memoizes_done (fuel fuel2 : Nat) (cd : CompDictModel)
    (p : Path) (tr tr' : Translation) (vm : VaryMap) (dbg : OptDebugInfo)
    (e : Expr) (v : Value)
    (hvm : getAssoc vm p = none)
    (hcell : findExpr tr p = .ok (some (.tagExpr (.OptEval e))))
    (hrun : resolvePath (fuel + 1) cd p tr vm dbg = .ok (.Val v, tr')) :
    findExpr tr' p = .ok (some (.tagExpr (.Done v))) ∧
    resolvePath (fuel2 + 1) cd p tr' vm dbg = .ok (.Val v, tr') := by
  obtain ⟨tr1, he, hi⟩ := resolvePath_opteval_inv fuel cd p tr tr' vm dbg e v hvm hcell hrun
  have hfind : findExpr tr' p = .ok (some (.tagExpr (.Done v))) := by
    cases p with
    | AccessPath inner idx => simp [findExpr] at hcell
    | FieldPath n f => exact insertExpr_field_find n f (.Done v) tr1 tr' hi
    | PropertyPath n f prop => exact insertExpr_prop_find n f prop (.Done v) tr1 tr' hi
  exact ⟨hfind, resolvePath_done_hit fuel2 cd p tr' vm dbg v hvm hfind⟩

/-- Witness for claim C8: a concrete unevaluated cell `A.x = 2 + 3`; the
first resolution computes and caches `Done`, the second returns the cached
value. -/
theorem resolvePath_memoizes_done_witness :
    findExpr ⟨[("A", [("x", .FExpr (.Done (.FloatV
        (.add (.constOf 2) (.constOf 3)))))])]⟩ (.FieldPath "A" "x") =
      .ok (some (.tagExpr (.Done (.FloatV (.add (.constOf 2) (.constOf 3)))))) ∧
    resolvePath (3 + 1) cdEmpty (.FieldPath "A" "x")
        ⟨[("A", [("x", .FExpr (.Done (.FloatV
          (.add (.constOf 2) (.constOf 3)))))])]⟩ [] dbg0 =
      .ok (.Val (.FloatV (.add (.constOf 2) (.constOf 3))),
        ⟨[("A", [("x", .FExpr (.Done (.FloatV
          (.add (.constOf 2) (.constOf 3)))))])]⟩) :=
  resolvePath_memoizes_done 5 3 cdEmpty (.FieldPath "A" "x")
    ⟨[("A", [("x", .FExpr (.OptEval (.BinOp .BPlus (.AFloat (.Fix (.num 2))) (.AFloat (.Fix (.num 3))))))])]⟩
    ⟨[("A", [("x", .FExpr (.Done (.FloatV (.add (.constOf 2) (.constOf 3)))))])]⟩
    [] dbg0 (.BinOp .BPlus (.AFloat (.Fix (.num 2))) (.AFloat (.Fix (.num 3))))
    (.FloatV (.add (.constOf 2) (.constOf 3))) rfl rfl (by rfl)

/-- Inversion of a successful `evalShapes` run: the varying map was built,
the varyings were inserted into the **caller's** translation, the caller's
state carries both mutations, and the returned state is the caller's state
with the sorted shapes. -/
theorem evalShapes_ok_inv (fuel : Nat) (cd : CompDictModel) (s ret caller : State)
    (h : evalShapes fuel cd s = .ok (ret, caller)) :
    ∃ vmap transW sorted,
      genPathMap (some s.varyingPaths)
          (some (s.varyingValues.map VarAD.differentiable)) = .ok vmap ∧
      insertVaryings s.translation
          (s.varyingPaths.zip (s.varyingValues.map VarAD.differentiable)) = .ok transW ∧
      caller = { s with varyingMap := vmap, translation := transW } ∧
      ret = { s with varyingMap := vmap, translation := transW, shapes := sorted } := by
  simp only [evalShapes] at h
  cases h1 : genPathMap (some s.varyingPaths)
      (some (s.varyingValues.map VarAD.differentiable)) with
  | error err => simp only [h1] at h; exact Except.noConfusion h
  | ok vmap =>
    simp only [h1] at h
    cases h2 : genPathMap (some s.varyingPaths) s.params.lastGradient with
    | error err => simp only [h2] at h; exact Except.noConfusion h
    | ok grad =>
      simp only [h2] at h
      cases h3 : genPathMap (some s.varyingPaths) s.params.lastGradientPreconditioned with
      | error err => simp only [h3] at h; exact Except.noConfusion h
      | ok gradP =>
        simp only [h3] at h
        cases h4 : insertVaryings s.translation
            (s.varyingPaths.zip (s.varyingValues.map VarAD.differentiable)) with
        | error err => simp only [h4] at h; exact Except.noConfusion h
        | ok transW =>
          simp only [h4] at h
          cases h5 : mapMExcept (fun p => findExpr transW p) s.shapePaths with
          | error err => simp only [h5] at h; exact Except.noConfusion h
          | ok shapeExprs =>
            simp only [h5] at h
            cases h6 : evalShapeFold fuel cd shapeExprs [] transW vmap ⟨grad, gradP⟩ with
            | error err => simp only [h6] at h; exact Except.noConfusion h
            | ok res =>
              obtain ⟨shapesEvaled, trE⟩ := res
              simp only [h6] at h
              cases h7 : sortShapes s.shapeOrdering shapesEvaled with
              | error err => simp only [h7] at h; exact Except.noConfusion h
              | ok sorted =>
                simp only [h7, Except.ok.injEq, Prod.mk.injEq] at h
                obtain ⟨hret, hcaller⟩ := h
                exact ⟨vmap, transW, sorted, rfl, rfl, hcaller.symm, hret.symm⟩

/-- Claim C10: `evalShapes` mutates the input state object in place,
reassigning its `varyingMap` to the freshly built path-to-value map before
returning the shallow copy; the caller's original state object therefore
observes the new varying map (identical to the returned state's), while its
`shapes` field keeps the old value. -/
theorem evalShapes_reassigns_caller_varyingMap (fuel : Nat) (cd : CompDictModel)
    (s ret caller : State) (h : evalShapes fuel cd s = .ok (ret, caller)) :
    genPathMap (some s.varyingPaths)
        (some (s.varyingValues.map VarAD.differentiable)) = .ok caller.varyingMap ∧
    ret.varyingMap = caller.varyingMap ∧
    caller.shapes = s.shapes := by
  obtain ⟨vmap, transW, sorted, h1, h2, hc, hr⟩ :=
    evalShapes_ok_inv fuel cd s ret caller h
  subst hc; subst hr
  exact ⟨h1, rfl, rfl⟩

/-- Witness for claim C10 on the concrete state `sC1`. -/
theorem evalShapes_reassigns_caller_varyingMap_witness :
    genPathMap (some sC1.varyingPaths)
        (some (sC1.varyingValues.map VarAD.differentiable)) = .ok callerC1.varyingMap ∧
    retC1.varyingMap = callerC1.varyingMap ∧
    callerC1.shapes = sC1.shapes :=
  evalShapes_reassigns_caller_varyingMap 20 cdEmpty sC1 retC1 callerC1 (by rfl)

/-- Claim C1 (counterexample): running `evalShapes` on `sC1` leaves the
caller's state holding a translation different from the one it held before
the call — the varying value `7` has been written as a `Done` float over the
`OptEval` cell, so the caller-visible translation is not byte-identical. -/
theorem evalShapes_insertion_mutates_caller_translation :
    (evalShapes 20 cdEmpty sC1).map (fun rc => rc.2.translation) = .ok transC1After ∧
    transC1After ≠ sC1.translation := by
  refine ⟨rfl, fun hcontra => ?_⟩
  have h2 := congrArg (fun t => cellTag t "A" "x") hcontra
  exact absurd h2 (by decide)

/-- Claim C1 (amended): the deep clone protects the caller only from the
caching writes made while evaluating; the varying insertion happens before
the clone and goes to the caller's own translation.  Hence after any
successful pass, the caller-visible translation is exactly the result of
inserting the varyings into it in place (and the returned state shares that
same translation object). -/
theorem evalShapes_caching_private_insertion_shared (fuel : Nat)
    (cd : CompDictModel) (s ret caller : State)
    (h : evalShapes fuel cd s = .ok (ret, caller)) :
    insertVaryings s.translation
        (s.varyingPaths.zip (s.varyingValues.map VarAD.differentiable)) =
      .ok caller.translation ∧
    ret.translation = caller.translation := by
  obtain ⟨vmap, transW, sorted, h1, h2, hc, hr⟩ :=
    evalShapes_ok_inv fuel cd s ret caller h
  subst hc; subst hr
  exact ⟨h2, rfl⟩

/-- Witness for the amended claim C1 on the concrete state `sC1`. -/
theorem evalShapes_caching_private_insertion_shared_witness :
    insertVaryings sC1.translation
        (sC1.varyingPaths.zip (sC1.varyingValues.map VarAD.differentiable)) =
      .ok callerC1.translation ∧
    retC1.translation = callerC1.translation :=
  evalShapes_caching_private_insertion_shared 20 cdEmpty sC1 retC1 callerC1 (by rfl)

end Penrose
